import Mathlib

/-!
Shallow embedding of `src/lib/efficientnet/utils.py`: the three batch
inference runner variants (`create_predictions`,
`create_predictions_with_entropy`, `create_predictions_probability`) and the
evaluator (`evaluate_model`), together with theorems settling the claims
about them.

Modelling conventions:
* a tensor row of raw per-class scores is a `List ℝ`; a batch of rows is a
  `List (List ℝ)`;
* the data loader is a `List` of batches, each carrying images, integer
  labels (already flattened, as `value.view(-1)` produces) and opaque sample
  identifiers;
* the classifier is a function from a device and an image batch to either a
  score matrix or an exception (covering device-transfer, shape and forward
  failures);
* the module's `train`/`eval` flag is threaded explicitly: every runner takes
  the initial flag and returns the final flag next to its result;
* `np.concatenate` of the per-batch accumulators is `List.flatten`; its
  failure on an empty accumulator list is the `emptyConcat` error;
* `np.mean` of the per-batch scalar losses is `sum / length`.
-/

namespace DR

/-- The torch module training/inference flag (`model.train()` / `model.eval()`). -/
inductive Mode : Type
  | train : Mode
  | eval : Mode
deriving DecidableEq

/-- One item yielded by the loader: a batch of images, their integer labels and
their sample identifiers, as parallel lists. -/
structure Batch (α ν : Type) : Type where
  images : List α
  labels : List ℤ
  names : List ν

/-- The classifier: from a device and an image batch to a matrix of raw
per-class scores, or an exception (device transfer, shape mismatch, forward
failure). -/
structure Model (α δ ε : Type) : Type where
  forward : δ → List α → Except ε (List (List ℝ))

/-- An error escaping a runner: either an exception raised inside the
per-batch loop, or the `np.concatenate` failure on an empty accumulator. -/
inductive RunError (ε : Type) : Type
  | inLoop : ε → RunError ε
  | emptyConcat : RunError ε

/-- Mean (`np.mean`) of the list of per-batch scalar losses. -/
noncomputable def meanLoss (ls : List ℝ) : ℝ := ls.sum / ls.length

/-- Maximum entry of a score row (`torch.max(..., dim=1).values` on one row);
`0` on the empty row, which torch rejects. -/
noncomputable def maxEntry : List ℝ → ℝ
  | [] => 0
  | x :: xs => List.foldl max x xs

/-- Index of the first maximal entry of a row (`torch.argmax(..., dim=1)` /
`torch.max(..., dim=1).indices` on one row). -/
noncomputable def idxMax : List ℝ → ℕ
  | [] => 0
  | x :: xs => if maxEntry (x :: xs) ≤ x then 0 else idxMax xs + 1

/-- Row-wise softmax (`torch.nn.functional.softmax(_, dim=1)` on one row). -/
noncomputable def softmax (xs : List ℝ) : List ℝ :=
  xs.map (fun x => Real.exp x / (xs.map Real.exp).sum)

/-- Temperature-scaled softmax: softmax of the row divided entrywise by `T`. -/
noncomputable def softmaxT (T : ℝ) (xs : List ℝ) : List ℝ :=
  softmax (xs.map (fun x => x / T))

/-- The `for` loop over the loader: process the batches in order, propagating
the first exception; on success, the list of per-batch results in order. -/
def runLoop {σ β ε : Type} (f : σ → Except ε β) : List σ → Except ε (List β)
  | [] => Except.ok []
  | b :: bs =>
    match f b with
    | Except.error e => Except.error e
    | Except.ok r =>
      match runLoop f bs with
      | Except.error e => Except.error e
      | Except.ok rs => Except.ok (r :: rs)

/-- Loop body of `create_predictions`: forward pass on the batch, scalar loss
of the raw scores against the labels, argmax of the raw scores per sample. -/
noncomputable def predBatch {α ν δ ε : Type} (model : Model α δ ε)
    (loss_fn : List (List ℝ) → List ℤ → ℝ) (device : δ) (b : Batch α ν) :
    Except ε (List ℕ × List ℤ × List ν × ℝ) :=
  match model.forward device b.images with
  | Except.error e => Except.error e
  | Except.ok scores =>
      Except.ok (scores.map idxMax, b.labels, b.names, loss_fn scores b.labels)

/-- Embedding of `create_predictions(loader, model, loss_fn, device)`: eval mode at entry,
per-batch loop, train mode restored, then concatenation of the accumulators
and the mean of the per-batch losses.  Returns the result (or the propagated
exception) together with the final mode flag. -/
noncomputable def create_predictions {α ν δ ε : Type} (loader : List (Batch α ν))
    (model : Model α δ ε) (loss_fn : List (List ℝ) → List ℤ → ℝ) (device : δ)
    (m0 : Mode) :
    Except (RunError ε) (List ℕ × List ℤ × List ν × ℝ) × Mode :=
  match runLoop (predBatch model loss_fn device) loader with
  | Except.error e => (Except.error (RunError.inLoop e), Mode.eval)
  | Except.ok rows =>
      if loader.isEmpty then (Except.error RunError.emptyConcat, Mode.train)
      else
        (Except.ok ((rows.map (fun r => r.1)).flatten,
                    (rows.map (fun r => r.2.1)).flatten,
                    (rows.map (fun r => r.2.2.1)).flatten,
                    meanLoss (rows.map (fun r => r.2.2.2))), Mode.train)

/-- Loop body of `create_predictions_with_entropy`: forward pass, then
`torch.max` over the temperature-scaled (T = 1.373) softmax of the raw
scores, giving per-sample (confidence, predicted class). -/
noncomputable def entropyBatch {α ν δ ε : Type} (model : Model α δ ε) (device : δ)
    (b : Batch α ν) : Except ε (List ℕ × List ℤ × List ℝ × List ν) :=
  match model.forward device b.images with
  | Except.error e => Except.error e
  | Except.ok result =>
      Except.ok (result.map (fun row => idxMax (softmaxT 1.373 row)),
                 b.labels,
                 result.map (fun row => maxEntry (softmaxT 1.373 row)),
                 b.names)

/-- Embedding of `create_predictions_with_entropy(loader, model, loss_fn, device)`; note
the return order of the code: predictions, values, probabilities, names.
The `loss_fn` argument is never read by the body. -/
noncomputable def create_predictions_with_entropy {α ν δ ε γ : Type}
    (loader : List (Batch α ν)) (model : Model α δ ε) (loss_fn : γ) (device : δ)
    (m0 : Mode) :
    Except (RunError ε) (List ℕ × List ℤ × List ℝ × List ν) × Mode :=
  match runLoop (entropyBatch model device) loader with
  | Except.error e => (Except.error (RunError.inLoop e), Mode.eval)
  | Except.ok rows =>
      if loader.isEmpty then (Except.error RunError.emptyConcat, Mode.train)
      else
        (Except.ok ((rows.map (fun r => r.1)).flatten,
                    (rows.map (fun r => r.2.1)).flatten,
                    (rows.map (fun r => r.2.2.1)).flatten,
                    (rows.map (fun r => r.2.2.2)).flatten), Mode.train)

/-- Loop body of `create_predictions_probability`: forward pass, then the full
temperature-scaled (T = 1.15) softmax row kept per sample. -/
noncomputable def probBatch {α ν δ ε : Type} (model : Model α δ ε) (device : δ)
    (b : Batch α ν) : Except ε (List (List ℝ) × List ℤ × List ν) :=
  match model.forward device b.images with
  | Except.error e => Except.error e
  | Except.ok result =>
      Except.ok (result.map (fun row => softmaxT 1.15 row), b.labels, b.names)

/-- Embedding of `create_predictions_probability(loader, model, _, device)`: the third
argument is the unused placeholder `_` of the Python signature. -/
noncomputable def create_predictions_probability {α ν δ ε γ : Type}
    (loader : List (Batch α ν)) (model : Model α δ ε) (x : γ) (device : δ)
    (m0 : Mode) :
    Except (RunError ε) (List (List ℝ) × List ℤ × List ν) × Mode :=
  match runLoop (probBatch model device) loader with
  | Except.error e => (Except.error (RunError.inLoop e), Mode.eval)
  | Except.ok rows =>
      if loader.isEmpty then (Except.error RunError.emptyConcat, Mode.train)
      else
        (Except.ok ((rows.map (fun r => r.1)).flatten,
                    (rows.map (fun r => r.2.1)).flatten,
                    (rows.map (fun r => r.2.2)).flatten), Mode.train)

/-- Total number of samples carried by a loader. -/
def totalCount {α ν : Type} (loader : List (Batch α ν)) : ℕ :=
  (loader.map (fun b => b.images.length)).sum

/-- Fraction of positions where the predicted class equals the true label
(`np.mean(predictions == labels)`). -/
noncomputable def accuracy (preds : List ℕ) (labels : List ℤ) : ℝ :=
  (((preds.zip labels).countP (fun pl => decide ((pl.1 : ℤ) = pl.2))) : ℝ) /
    (preds.length : ℝ)

/-- The external sklearn metric functions, abstract here; the last argument is
the `weights=` / `average=` keyword the code passes. -/
structure Metrics : Type where
  cohen_kappa_score : List ℤ → List ℕ → String → ℝ
  f1_score : List ℤ → List ℕ → String → ℝ

/-- The configuration object consumed by `evaluate_model`: a device and the
truthiness of `config.writer`. -/
structure Config (δ : Type) : Type where
  device : δ
  writer : Bool

/-- Observable output events of `evaluate_model`: the `print` of the Kappa
score, and each `writer.add_scalar(tag, value, epoch)` call in order. -/
inductive Event : Type
  | printKappa : ℝ → Event
  | addScalar : String → ℝ → ℕ → Event

/-- Embedding of `evaluate_model(epoch, val_loader, model, config, loss_fn)`: run
`create_predictions`, compute Kappa (quadratic weights), accuracy and macro
F1 over the whole aggregate, print Kappa, and log the four scalars exactly
when a writer is configured.  Returns the emitted events (the function itself
returns `None`) and the final mode flag; a runner exception propagates. -/
noncomputable def evaluate_model {α ν δ ε : Type} (epoch : ℕ)
    (val_loader : List (Batch α ν)) (model : Model α δ ε) (config : Config δ)
    (loss_fn : List (List ℝ) → List ℤ → ℝ) (mtr : Metrics) (m0 : Mode) :
    Except (RunError ε) (List Event) × Mode :=
  match create_predictions val_loader model loss_fn config.device m0 with
  | (Except.error e, m) => (Except.error e, m)
  | (Except.ok (predictions, labels, _, loss), m) =>
      let kappa := mtr.cohen_kappa_score labels predictions "quadratic"
      let acc := accuracy predictions labels
      let f1 := mtr.f1_score labels predictions "macro"
      (Except.ok
        (Event.printKappa kappa ::
          (if config.writer then
            [Event.addScalar "Kappa" kappa epoch,
             Event.addScalar "Accuracy" acc epoch,
             Event.addScalar "F1" f1 epoch,
             Event.addScalar "val_loss" loss epoch]
          else [])), m)

/- ## Helper lemmas about the loop -/

theorem runLoop_ok {σ β ε : Type} (f : σ → Except ε β) (g : σ → β) :
    ∀ (l : List σ), (∀ b ∈ l, f b = Except.ok (g b)) →
      runLoop f l = Except.ok (l.map g)
  | [], _ => rfl
  | b :: bs, h => by
    have hb := h b (List.mem_cons_self b bs)
    have ih := runLoop_ok f g bs (fun a ha => h a (List.mem_cons_of_mem b ha))
    simp [runLoop, hb, ih]

theorem runLoop_error {σ β ε : Type} (f : σ → Except ε β) (g : σ → β) (e : ε) (b : σ) :
    ∀ (pre : List σ), (∀ a ∈ pre, f a = Except.ok (g a)) → f b = Except.error e →
      ∀ (post : List σ), runLoop f (pre ++ b :: post) = Except.error e
  | [], _, hb, post => by simp [runLoop, hb]
  | a :: pre, h, hb, post => by
    have ha := h a (List.mem_cons_self a pre)
    have ih := runLoop_error f g e b pre
      (fun c hc => h c (List.mem_cons_of_mem a hc)) hb post
    simp [runLoop, ha, ih]

/- ## Helper lemmas about maxima and argmaxima of rows -/

theorem foldl_max_assoc (ys : List ℝ) : ∀ (a b : ℝ),
    List.foldl max (max a b) ys = max a (List.foldl max b ys) := by
  induction ys with
  | nil => intro a b; rfl
  | cons c ys ih =>
    intro a b
    simp only [List.foldl_cons]
    rw [max_assoc]
    exact ih a (max b c)

theorem le_foldl_max (xs : List ℝ) : ∀ (b : ℝ), b ≤ List.foldl max b xs := by
  induction xs with
  | nil => intro b; exact le_refl b
  | cons x xs ih =>
    intro b
    simp only [List.foldl_cons]
    exact le_trans (le_max_left b x) (ih (max b x))

theorem mem_le_foldl_max (xs : List ℝ) : ∀ (b y : ℝ), y ∈ xs → y ≤ List.foldl max b xs := by
  induction xs with
  | nil => intro b y hy; cases hy
  | cons x xs ih =>
    intro b y hy
    simp only [List.foldl_cons]
    rcases List.mem_cons.mp hy with h | h
    · subst h; exact le_trans (le_max_right b y) (le_foldl_max xs (max b y))
    · exact ih (max b x) y h

theorem foldl_max_mem (xs : List ℝ) :
    ∀ (b : ℝ), List.foldl max b xs = b ∨ List.foldl max b xs ∈ xs := by
  induction xs with
  | nil => intro b; exact Or.inl rfl
  | cons x xs ih =>
    intro b
    simp only [List.foldl_cons]
    rcases ih (max b x) with h | h
    · rcases max_choice b x with hc | hc
      · left; rw [h, hc]
      · right; rw [h, hc]; exact List.mem_cons_self x xs
    · right; exact List.mem_cons_of_mem x h

theorem maxEntry_mem (xs : List ℝ) (h : xs ≠ []) : maxEntry xs ∈ xs := by
  cases xs with
  | nil => exact absurd rfl h
  | cons x l =>
    show List.foldl max x l ∈ x :: l
    rcases foldl_max_mem l x with h1 | h1
    · rw [h1]; exact List.mem_cons_self x l
    · exact List.mem_cons_of_mem x h1

theorem le_maxEntry (xs : List ℝ) (y : ℝ) (hy : y ∈ xs) : y ≤ maxEntry xs := by
  cases xs with
  | nil => cases hy
  | cons x l =>
    show y ≤ List.foldl max x l
    rcases List.mem_cons.mp hy with h | h
    · subst h; exact le_foldl_max l y
    · exact mem_le_foldl_max l x y h

theorem maxEntry_cons (x : ℝ) (l : List ℝ) (h : l ≠ []) :
    maxEntry (x :: l) = max x (maxEntry l) := by
  cases l with
  | nil => exact absurd rfl h
  | cons y l2 =>
    show List.foldl max x (y :: l2) = max x (List.foldl max y l2)
    simp only [List.foldl_cons]
    exact foldl_max_assoc l2 x y

theorem idxMax_lt_length (xs : List ℝ) (h : xs ≠ []) : idxMax xs < xs.length := by
  induction xs with
  | nil => exact absurd rfl h
  | cons x l ih =>
    simp only [idxMax]
    by_cases hc : maxEntry (x :: l) ≤ x
    · rw [if_pos hc]; simp
    · rw [if_neg hc]
      have hl : l ≠ [] := by
        intro hnil; subst hnil
        exact hc (le_refl x)
      simp only [List.length_cons]
      exact Nat.succ_lt_succ (ih hl)

theorem getD_idxMax (xs : List ℝ) (h : xs ≠ []) :
    xs.getD (idxMax xs) 0 = maxEntry xs := by
  induction xs with
  | nil => exact absurd rfl h
  | cons x l ih =>
    simp only [idxMax]
    by_cases hc : maxEntry (x :: l) ≤ x
    · rw [if_pos hc]
      have hx : x ≤ maxEntry (x :: l) := le_maxEntry (x :: l) x (List.mem_cons_self x l)
      simp [le_antisymm hc hx]
    · rw [if_neg hc]
      have hl : l ≠ [] := by
        intro hnil; subst hnil
        exact hc (le_refl x)
      have h2 : (x :: l).getD (idxMax l + 1) 0 = l.getD (idxMax l) 0 := rfl
      rw [h2, ih hl, maxEntry_cons x l hl]
      have hx : x ≤ maxEntry l := by
        by_contra hlt
        push_neg at hlt
        apply hc
        rw [maxEntry_cons x l hl]
        exact max_le (le_refl x) (le_of_lt hlt)
      exact (max_eq_right hx).symm

/- ## Helper lemmas about softmax -/

theorem length_softmax (xs : List ℝ) : (softmax xs).length = xs.length := by
  simp [softmax]

theorem length_softmaxT (T : ℝ) (xs : List ℝ) : (softmaxT T xs).length = xs.length := by
  simp [softmaxT, softmax]

theorem softmaxT_ne_nil (T : ℝ) (xs : List ℝ) (h : xs ≠ []) : softmaxT T xs ≠ [] := by
  intro hx
  apply h
  have := length_softmaxT T xs
  rw [hx] at this
  exact List.length_eq_zero.mp this.symm

theorem sum_map_div (l : List ℝ) (f : ℝ → ℝ) (c : ℝ) :
    (l.map (fun x => f x / c)).sum = (l.map f).sum / c := by
  induction l with
  | nil => simp
  | cons x l ih => simp [ih, add_div]

theorem sum_exp_pos (xs : List ℝ) (h : xs ≠ []) : 0 < (xs.map Real.exp).sum := by
  cases xs with
  | nil => exact absurd rfl h
  | cons x l =>
    simp only [List.map_cons, List.sum_cons]
    have h1 : (0:ℝ) ≤ (l.map Real.exp).sum := by
      apply List.sum_nonneg
      intro y hy
      rcases List.mem_map.mp hy with ⟨a, _, rfl⟩
      exact (Real.exp_pos a).le
    have h2 : (0:ℝ) < Real.exp x := Real.exp_pos x
    linarith

theorem sum_softmax (xs : List ℝ) (h : xs ≠ []) : (softmax xs).sum = 1 := by
  have hp := sum_exp_pos xs h
  simp only [softmax]
  rw [sum_map_div]
  exact div_self (ne_of_gt hp)

theorem softmax_mem_bounds (xs : List ℝ) (h : xs ≠ []) (y : ℝ)
    (hy : y ∈ softmax xs) : 0 ≤ y ∧ y ≤ 1 := by
  have hp := sum_exp_pos xs h
  rcases List.mem_map.mp hy with ⟨a, ha, rfl⟩
  constructor
  · exact div_nonneg (Real.exp_pos a).le hp.le
  · rw [div_le_one hp]
    apply List.single_le_sum
    · intro z hz
      rcases List.mem_map.mp hz with ⟨w, _, rfl⟩
      exact (Real.exp_pos w).le
    · exact List.mem_map_of_mem Real.exp ha

theorem map_div_ne_nil (T : ℝ) (xs : List ℝ) (h : xs ≠ []) :
    xs.map (fun x => x / T) ≠ [] := by
  intro hx
  apply h
  have := congrArg List.length hx
  simp at this
  exact List.length_eq_zero.mp (by simpa using this)

theorem sum_softmaxT (T : ℝ) (xs : List ℝ) (h : xs ≠ []) : (softmaxT T xs).sum = 1 :=
  sum_softmax (xs.map (fun x => x / T)) (map_div_ne_nil T xs h)

theorem softmaxT_mem_bounds (T : ℝ) (xs : List ℝ) (h : xs ≠ []) (y : ℝ)
    (hy : y ∈ softmaxT T xs) : 0 ≤ y ∧ y ≤ 1 :=
  softmax_mem_bounds (xs.map (fun x => x / T)) (map_div_ne_nil T xs h) y hy

/- ## Helper lemmas about lengths of concatenations -/

theorem length_flatten_map {σ τ : Type} (l : List σ) (f : σ → List τ) :
    ((l.map f).flatten).length = (l.map (fun b => (f b).length)).sum := by
  induction l with
  | nil => rfl
  | cons x l ih => simp [ih]

theorem sum_map_congr {σ : Type} (l : List σ) (f g : σ → ℕ)
    (h : ∀ b ∈ l, f b = g b) : (l.map f).sum = (l.map g).sum := by
  induction l with
  | nil => rfl
  | cons x l ih =>
    simp only [List.map_cons, List.sum_cons]
    rw [h x (List.mem_cons_self x l),
        ih (fun b hb => h b (List.mem_cons_of_mem x hb))]

/- ## Core evaluation lemmas for the three runner variants -/

theorem create_predictions_run {α ν δ ε : Type} (loader : List (Batch α ν))
    (model : Model α δ ε) (loss_fn : List (List ℝ) → List ℤ → ℝ) (device : δ)
    (m0 : Mode) (scores : Batch α ν → List (List ℝ))
    (hs : ∀ b ∈ loader, model.forward device b.images = Except.ok (scores b))
    (hne : loader ≠ []) :
    create_predictions loader model loss_fn device m0 =
      (Except.ok ((loader.map (fun b => (scores b).map idxMax)).flatten,
                  (loader.map (fun b => b.labels)).flatten,
                  (loader.map (fun b => b.names)).flatten,
                  meanLoss (loader.map (fun b => loss_fn (scores b) b.labels))),
       Mode.train) := by
  have hloop : runLoop (predBatch model loss_fn device) loader =
      Except.ok (loader.map (fun b =>
        ((scores b).map idxMax, b.labels, b.names, loss_fn (scores b) b.labels))) := by
    apply runLoop_ok
    intro b hb
    simp [predBatch, hs b hb]
  simp [create_predictions, hloop, hne, List.map_map, Function.comp_def]

theorem create_predictions_entropy_run {α ν δ ε γ : Type} (loader : List (Batch α ν))
    (model : Model α δ ε) (loss_fn : γ) (device : δ) (m0 : Mode)
    (scores : Batch α ν → List (List ℝ))
    (hs : ∀ b ∈ loader, model.forward device b.images = Except.ok (scores b))
    (hne : loader ≠ []) :
    create_predictions_with_entropy loader model loss_fn device m0 =
      (Except.ok ((loader.map (fun b =>
                     (scores b).map (fun row => idxMax (softmaxT 1.373 row)))).flatten,
                  (loader.map (fun b => b.labels)).flatten,
                  (loader.map (fun b =>
                     (scores b).map (fun row => maxEntry (softmaxT 1.373 row)))).flatten,
                  (loader.map (fun b => b.names)).flatten),
       Mode.train) := by
  have hloop : runLoop (entropyBatch model device) loader =
      Except.ok (loader.map (fun b =>
        ((scores b).map (fun row => idxMax (softmaxT 1.373 row)), b.labels,
         (scores b).map (fun row => maxEntry (softmaxT 1.373 row)), b.names))) := by
    apply runLoop_ok
    intro b hb
    simp [entropyBatch, hs b hb]
  simp [create_predictions_with_entropy, hloop, hne, List.map_map, Function.comp_def]

theorem create_predictions_probability_run {α ν δ ε γ : Type} (loader : List (Batch α ν))
    (model : Model α δ ε) (x : γ) (device : δ) (m0 : Mode)
    (scores : Batch α ν → List (List ℝ))
    (hs : ∀ b ∈ loader, model.forward device b.images = Except.ok (scores b))
    (hne : loader ≠ []) :
    create_predictions_probability loader model x device m0 =
      (Except.ok ((loader.map (fun b =>
                     (scores b).map (fun row => softmaxT 1.15 row))).flatten,
                  (loader.map (fun b => b.labels)).flatten,
                  (loader.map (fun b => b.names)).flatten),
       Mode.train) := by
  have hloop : runLoop (probBatch model device) loader =
      Except.ok (loader.map (fun b =>
        ((scores b).map (fun row => softmaxT 1.15 row), b.labels, b.names))) := by
    apply runLoop_ok
    intro b hb
    simp [probBatch, hs b hb]
  simp [create_predictions_probability, hloop, hne, List.map_map, Function.comp_def]

theorem create_predictions_error {α ν δ ε : Type} (pre post : List (Batch α ν))
    (b : Batch α ν) (model : Model α δ ε) (loss_fn : List (List ℝ) → List ℤ → ℝ)
    (device : δ) (m0 : Mode) (e : ε) (scores : Batch α ν → List (List ℝ))
    (hpre : ∀ a ∈ pre, model.forward device a.images = Except.ok (scores a))
    (hb : model.forward device b.images = Except.error e) :
    create_predictions (pre ++ b :: post) model loss_fn device m0 =
      (Except.error (RunError.inLoop e), Mode.eval) := by
  have hloop : runLoop (predBatch model loss_fn device) (pre ++ b :: post) =
      Except.error e := by
    apply runLoop_error (g := fun a =>
      ((scores a).map idxMax, a.labels, a.names, loss_fn (scores a) a.labels))
    · intro a ha
      simp [predBatch, hpre a ha]
    · simp [predBatch, hb]
  simp [create_predictions, hloop]

theorem create_predictions_entropy_error {α ν δ ε γ : Type} (pre post : List (Batch α ν))
    (b : Batch α ν) (model : Model α δ ε) (loss_fn : γ) (device : δ) (m0 : Mode)
    (e : ε) (scores : Batch α ν → List (List ℝ))
    (hpre : ∀ a ∈ pre, model.forward device a.images = Except.ok (scores a))
    (hb : model.forward device b.images = Except.error e) :
    create_predictions_with_entropy (pre ++ b :: post) model loss_fn device m0 =
      (Except.error (RunError.inLoop e), Mode.eval) := by
  have hloop : runLoop (entropyBatch model device) (pre ++ b :: post) =
      Except.error e := by
    apply runLoop_error (g := fun a =>
      ((scores a).map (fun row => idxMax (softmaxT 1.373 row)), a.labels,
       (scores a).map (fun row => maxEntry (softmaxT 1.373 row)), a.names))
    · intro a ha
      simp [entropyBatch, hpre a ha]
    · simp [entropyBatch, hb]
  simp [create_predictions_with_entropy, hloop]

theorem create_predictions_probability_error {α ν δ ε γ : Type}
    (pre post : List (Batch α ν)) (b : Batch α ν) (model : Model α δ ε) (x : γ)
    (device : δ) (m0 : Mode) (e : ε) (scores : Batch α ν → List (List ℝ))
    (hpre : ∀ a ∈ pre, model.forward device a.images = Except.ok (scores a))
    (hb : model.forward device b.images = Except.error e) :
    create_predictions_probability (pre ++ b :: post) model x device m0 =
      (Except.error (RunError.inLoop e), Mode.eval) := by
  have hloop : runLoop (probBatch model device) (pre ++ b :: post) =
      Except.error e := by
    apply runLoop_error (g := fun a =>
      ((scores a).map (fun row => softmaxT 1.15 row), a.labels, a.names))
    · intro a ha
      simp [probBatch, hpre a ha]
    · simp [probBatch, hb]
  simp [create_predictions_probability, hloop]

theorem length_flatten_eq_totalCount {α ν τ : Type} (loader : List (Batch α ν))
    (f : Batch α ν → List τ) (h : ∀ b ∈ loader, (f b).length = b.images.length) :
    ((loader.map f).flatten).length = totalCount loader := by
  rw [length_flatten_map]
  exact sum_map_congr loader _ _ h

/- ## Concrete material for witnesses and counterexamples -/

/-- A concrete batch of three samples with labels 0, 1, 2 and identifiers
10, 11, 12. -/
def wB1 : Batch Unit ℕ := ⟨[(), (), ()], [0, 1, 2], [10, 11, 12]⟩

/-- A concrete batch of one sample with label 3 and identifier 13. -/
def wB2 : Batch Unit ℕ := ⟨[()], [3], [13]⟩

/-- A concrete loader with batch sizes 3 and 1. -/
def wLoader : List (Batch Unit ℕ) := [wB1, wB2]

/-- A concrete classifier producing the single raw score 0 for every sample. -/
noncomputable def wModel : Model Unit Unit Unit :=
  ⟨fun _ imgs => Except.ok (imgs.map (fun _ => [0]))⟩

/-- The score matrix `wModel` produces on a batch. -/
noncomputable def wScores {ν : Type} : Batch Unit ν → List (List ℝ) :=
  fun b => b.images.map (fun _ => [0])

/-- A concrete loss function: 2 on a three-label batch, 6 otherwise. -/
noncomputable def wLoss : List (List ℝ) → List ℤ → ℝ :=
  fun _ v => if v.length = 3 then 2 else 6

/-- A concrete classifier whose forward pass always raises. -/
def wFailModel : Model Unit Unit Unit := ⟨fun _ _ => Except.error ()⟩

/-- A concrete one-sample batch whose identifier is the real number 5, used to
compare the identifier slot with the confidence slot of the returned tuple. -/
def cB : Batch Unit ℝ := ⟨[()], [3], [5]⟩

theorem wModel_forward {ν : Type} (b : Batch Unit ν) :
    wModel.forward () b.images = Except.ok (wScores b) := rfl

theorem wLoader_ne : wLoader ≠ [] := by simp [wLoader]

theorem wHs : ∀ b ∈ wLoader, wModel.forward () b.images = Except.ok (wScores b) :=
  fun b _ => wModel_forward b

theorem wHlen : ∀ b ∈ wLoader, (wScores b).length = b.images.length := by
  intro b _
  simp [wScores]

theorem wHlab : ∀ b ∈ wLoader, b.labels.length = b.images.length := by
  intro b hb
  simp [wLoader] at hb
  rcases hb with rfl | rfl <;> rfl

theorem wHnam : ∀ b ∈ wLoader, b.names.length = b.images.length := by
  intro b hb
  simp [wLoader] at hb
  rcases hb with rfl | rfl <;> rfl

theorem wHrows : ∀ b ∈ wLoader, ∀ row ∈ wScores b, row ≠ [] := by
  intro b _ row hrow
  simp [wScores] at hrow
  rcases hrow with ⟨a, _, rfl⟩
  simp

/- ## Claim theorems -/

/-- C10: the probability variant's result is independent of its third
(loss-function placeholder) argument: for every batch sequence, classifier,
device and initial mode, any two values of that argument — even of different
types — yield identical results and identical final mode; the argument is
never read. -/
theorem C10_third_argument_unused {α ν δ ε γ γ2 : Type} (loader : List (Batch α ν))
    (model : Model α δ ε) (x : γ) (y : γ2) (device : δ) (m0 : Mode) :
    create_predictions_probability loader model x device m0 =
      create_predictions_probability loader model y device m0 := rfl

/-- C5: immediately after any successful call to any of the three runner
variants, the classifier's mode flag equals `train`: whatever the initial
flag, whenever the returned result is `ok` the returned flag is `Mode.train`.
(The embedding of each runner returns only its result and this flag, so no
other external state is touched.) -/
theorem C5_mode_train_after_success {α ν δ ε γ : Type} (loader : List (Batch α ν))
    (model : Model α δ ε) (loss_fn : List (List ℝ) → List ℤ → ℝ) (lf2 : γ) (x : γ)
    (device : δ) (m0 : Mode) :
    (∀ r, (create_predictions loader model loss_fn device m0).1 = Except.ok r →
        (create_predictions loader model loss_fn device m0).2 = Mode.train) ∧
    (∀ r, (create_predictions_with_entropy loader model lf2 device m0).1 = Except.ok r →
        (create_predictions_with_entropy loader model lf2 device m0).2 = Mode.train) ∧
    (∀ r, (create_predictions_probability loader model x device m0).1 = Except.ok r →
        (create_predictions_probability loader model x device m0).2 = Mode.train) := by
  refine ⟨?_, ?_, ?_⟩
  · intro r hr
    cases hloop : runLoop (predBatch model loss_fn device) loader with
    | error e => simp [create_predictions, hloop] at hr
    | ok rows =>
      by_cases hE : loader.isEmpty
      · simp [create_predictions, hloop, hE] at hr
      · simp [create_predictions, hloop, hE]
  · intro r hr
    cases hloop : runLoop (entropyBatch model device) loader with
    | error e => simp [create_predictions_with_entropy, hloop] at hr
    | ok rows =>
      by_cases hE : loader.isEmpty
      · simp [create_predictions_with_entropy, hloop, hE] at hr
      · simp [create_predictions_with_entropy, hloop, hE]
  · intro r hr
    cases hloop : runLoop (probBatch model device) loader with
    | error e => simp [create_predictions_probability, hloop] at hr
    | ok rows =>
      by_cases hE : loader.isEmpty
      · simp [create_predictions_probability, hloop, hE] at hr
      · simp [create_predictions_probability, hloop, hE]

/-- Witness for C5: on a concrete successful run, the final mode flag is
`train` even though the call started from `eval` mode. -/
theorem C5_witness :
    (create_predictions wLoader wModel wLoss () Mode.eval).2 = Mode.train := by
  have hrun := create_predictions_run wLoader wModel wLoss () Mode.eval wScores wHs wLoader_ne
  exact (C5_mode_train_after_success wLoader wModel wLoss (0:ℕ) (0:ℕ) () Mode.eval).1 _
    (by rw [hrun])

/-- C6: no runner variant catches any error.  If the classifier forward pass
raises on some batch (all earlier batches succeeding), the exception
propagates to the caller and the mode flag is left at `eval`; an empty batch
sequence makes the final concatenation raise, which also propagates (the loop
never ran, so the flag was already restored to `train`). -/
theorem C6_errors_propagate {α ν δ ε γ : Type} (pre post : List (Batch α ν))
    (b : Batch α ν) (model : Model α δ ε) (loss_fn : List (List ℝ) → List ℤ → ℝ)
    (lf2 : γ) (x : γ) (device : δ) (m0 : Mode) (e : ε)
    (scores : Batch α ν → List (List ℝ))
    (hpre : ∀ a ∈ pre, model.forward device a.images = Except.ok (scores a))
    (hb : model.forward device b.images = Except.error e) :
    create_predictions (pre ++ b :: post) model loss_fn device m0 =
        (Except.error (RunError.inLoop e), Mode.eval) ∧
    create_predictions_with_entropy (pre ++ b :: post) model lf2 device m0 =
        (Except.error (RunError.inLoop e), Mode.eval) ∧
    create_predictions_probability (pre ++ b :: post) model x device m0 =
        (Except.error (RunError.inLoop e), Mode.eval) ∧
    create_predictions ([] : List (Batch α ν)) model loss_fn device m0 =
        (Except.error RunError.emptyConcat, Mode.train) ∧
    create_predictions_with_entropy ([] : List (Batch α ν)) model lf2 device m0 =
        (Except.error RunError.emptyConcat, Mode.train) ∧
    create_predictions_probability ([] : List (Batch α ν)) model x device m0 =
        (Except.error RunError.emptyConcat, Mode.train) :=
  ⟨create_predictions_error pre post b model loss_fn device m0 e scores hpre hb,
   create_predictions_entropy_error pre post b model lf2 device m0 e scores hpre hb,
   create_predictions_probability_error pre post b model x device m0 e scores hpre hb,
   rfl, rfl, rfl⟩

/-- Witness for C6: a concrete classifier whose forward pass raises makes the
loss+label runner propagate the error with the mode flag left at `eval`. -/
theorem C6_witness :
    create_predictions [wB1] wFailModel wLoss () Mode.train =
      (Except.error (RunError.inLoop ()), Mode.eval) := by
  have h := (C6_errors_propagate ([] : List (Batch Unit ℕ)) [] wB1 wFailModel wLoss
    (0:ℕ) (0:ℕ) () Mode.train () (fun _ => []) (fun a ha => absurd ha (by simp)) rfl).1
  simpa using h

/-- C1: for every non-empty batch sequence whose batches carry equally many
images, labels and identifiers, and a classifier producing one score row per
sample, each flat sequence returned by any of the three runner variants is
the in-order concatenation of the per-batch per-sample values (so index `i`
refers to the same sample in all of them, in input iteration order) and has
length equal to the total sample count across all batches. -/
theorem C1_lengths_and_alignment {α ν δ ε γ : Type} (loader : List (Batch α ν))
    (model : Model α δ ε) (loss_fn : List (List ℝ) → List ℤ → ℝ) (lf2 : γ) (x : γ)
    (device : δ) (m0 : Mode) (scores : Batch α ν → List (List ℝ))
    (hs : ∀ b ∈ loader, model.forward device b.images = Except.ok (scores b))
    (hlen : ∀ b ∈ loader, (scores b).length = b.images.length)
    (hlab : ∀ b ∈ loader, b.labels.length = b.images.length)
    (hnam : ∀ b ∈ loader, b.names.length = b.images.length)
    (hne : loader ≠ []) :
    ((create_predictions loader model loss_fn device m0).1 =
        Except.ok ((loader.map (fun b => (scores b).map idxMax)).flatten,
                   (loader.map (fun b => b.labels)).flatten,
                   (loader.map (fun b => b.names)).flatten,
                   meanLoss (loader.map (fun b => loss_fn (scores b) b.labels))) ∧
      ((loader.map (fun b => (scores b).map idxMax)).flatten).length = totalCount loader ∧
      ((loader.map (fun b => b.labels)).flatten).length = totalCount loader ∧
      ((loader.map (fun b => b.names)).flatten).length = totalCount loader) ∧
    ((create_predictions_with_entropy loader model lf2 device m0).1 =
        Except.ok ((loader.map (fun b =>
                      (scores b).map (fun row => idxMax (softmaxT 1.373 row)))).flatten,
                   (loader.map (fun b => b.labels)).flatten,
                   (loader.map (fun b =>
                      (scores b).map (fun row => maxEntry (softmaxT 1.373 row)))).flatten,
                   (loader.map (fun b => b.names)).flatten) ∧
      ((loader.map (fun b =>
          (scores b).map (fun row => idxMax (softmaxT 1.373 row)))).flatten).length =
        totalCount loader ∧
      ((loader.map (fun b =>
          (scores b).map (fun row => maxEntry (softmaxT 1.373 row)))).flatten).length =
        totalCount loader) ∧
    ((create_predictions_probability loader model x device m0).1 =
        Except.ok ((loader.map (fun b =>
                      (scores b).map (fun row => softmaxT 1.15 row))).flatten,
                   (loader.map (fun b => b.labels)).flatten,
                   (loader.map (fun b => b.names)).flatten) ∧
      ((loader.map (fun b =>
          (scores b).map (fun row => softmaxT 1.15 row))).flatten).length =
        totalCount loader) := by
  have h1 := create_predictions_run loader model loss_fn device m0 scores hs hne
  have h2 := create_predictions_entropy_run loader model lf2 device m0 scores hs hne
  have h3 := create_predictions_probability_run loader model x device m0 scores hs hne
  refine ⟨⟨by rw [h1], ?_, ?_, ?_⟩, ⟨by rw [h2], ?_, ?_⟩, ⟨by rw [h3], ?_⟩⟩ <;>
  · apply length_flatten_eq_totalCount
    intro b hb
    simp [hlen b hb, hlab b hb, hnam b hb]

/-- Witness for C1: the loss+label variant on a concrete two-batch loader
with sizes 3 and 1 returns the aligned flat sequences, each of length 4. -/
theorem C1_witness :
    (create_predictions wLoader wModel wLoss () Mode.train).1 =
        Except.ok ((wLoader.map (fun b => (wScores b).map idxMax)).flatten,
                   (wLoader.map (fun b => b.labels)).flatten,
                   (wLoader.map (fun b => b.names)).flatten,
                   meanLoss (wLoader.map (fun b => wLoss (wScores b) b.labels))) ∧
    ((wLoader.map (fun b => (wScores b).map idxMax)).flatten).length = totalCount wLoader ∧
    ((wLoader.map (fun b => b.labels)).flatten).length = totalCount wLoader ∧
    ((wLoader.map (fun b => b.names)).flatten).length = totalCount wLoader := by
  have h := C1_lengths_and_alignment wLoader wModel wLoss (0:ℕ) (0:ℕ) () Mode.train
    wScores wHs wHlen wHlab wHnam wLoader_ne
  exact h.1

/-- C9: in the loss+label variant, the returned predicted classes are the
argmax indices of the raw scores (no temperature scaling or softmax before
the argmax), the returned scalar is the mean of the per-batch losses computed
by the supplied loss function from the raw scores and the true labels, and on
every nonempty raw row the argmax index is in range and picks out the maximum
raw score. -/
theorem C9_loss_variant_raw_argmax {α ν δ ε : Type} (loader : List (Batch α ν))
    (model : Model α δ ε) (loss_fn : List (List ℝ) → List ℤ → ℝ) (device : δ)
    (m0 : Mode) (scores : Batch α ν → List (List ℝ))
    (hs : ∀ b ∈ loader, model.forward device b.images = Except.ok (scores b))
    (hne : loader ≠ []) :
    (create_predictions loader model loss_fn device m0).1 =
        Except.ok ((loader.map (fun b => (scores b).map idxMax)).flatten,
                   (loader.map (fun b => b.labels)).flatten,
                   (loader.map (fun b => b.names)).flatten,
                   meanLoss (loader.map (fun b => loss_fn (scores b) b.labels))) ∧
    ∀ b ∈ loader, ∀ row ∈ scores b, row ≠ [] →
      (idxMax row < row.length ∧ row.getD (idxMax row) 0 = maxEntry row ∧
       ∀ y ∈ row, y ≤ maxEntry row) := by
  refine ⟨by rw [create_predictions_run loader model loss_fn device m0 scores hs hne], ?_⟩
  intro b _ row _ hrow
  exact ⟨idxMax_lt_length row hrow, getD_idxMax row hrow,
    fun y hy => le_maxEntry row y hy⟩

/-- Witness for C9: on the concrete raw row `[0]` produced by the concrete
classifier, the argmax index is in range and indexes the maximum raw score. -/
theorem C9_witness :
    idxMax [(0:ℝ)] < ([(0:ℝ)]).length ∧
    ([(0:ℝ)]).getD (idxMax [(0:ℝ)]) 0 = maxEntry [(0:ℝ)] ∧
    ∀ y ∈ [(0:ℝ)], y ≤ maxEntry [(0:ℝ)] := by
  have h := C9_loss_variant_raw_argmax wLoader wModel wLoss () Mode.train wScores
    wHs wLoader_ne
  exact h.2 wB1 (by simp [wLoader]) [0] (by simp [wScores, wB1]) (by simp)

/-- C3: the confidence variant returns, per sample, exactly the maximum entry
of the softmax of that sample's raw scores divided by the fixed temperature
1.373 as the confidence and the argmax of that softmax vector as the
predicted class; on every nonempty raw row, the confidence is a member of the
softmax vector, bounds all its entries, and sits at the returned index. -/
theorem C3_confidence_softmax_max {α ν δ ε γ : Type} (loader : List (Batch α ν))
    (model : Model α δ ε) (lf2 : γ) (device : δ) (m0 : Mode)
    (scores : Batch α ν → List (List ℝ))
    (hs : ∀ b ∈ loader, model.forward device b.images = Except.ok (scores b))
    (hne : loader ≠ []) :
    (create_predictions_with_entropy loader model lf2 device m0).1 =
        Except.ok ((loader.map (fun b =>
                      (scores b).map (fun row => idxMax (softmaxT 1.373 row)))).flatten,
                   (loader.map (fun b => b.labels)).flatten,
                   (loader.map (fun b =>
                      (scores b).map (fun row => maxEntry (softmaxT 1.373 row)))).flatten,
                   (loader.map (fun b => b.names)).flatten) ∧
    ∀ b ∈ loader, ∀ row ∈ scores b, row ≠ [] →
      (maxEntry (softmaxT 1.373 row) ∈ softmaxT 1.373 row ∧
       (∀ y ∈ softmaxT 1.373 row, y ≤ maxEntry (softmaxT 1.373 row)) ∧
       idxMax (softmaxT 1.373 row) < (softmaxT 1.373 row).length ∧
       (softmaxT 1.373 row).getD (idxMax (softmaxT 1.373 row)) 0 =
         maxEntry (softmaxT 1.373 row)) := by
  refine ⟨by rw [create_predictions_entropy_run loader model lf2 device m0 scores hs hne],
    ?_⟩
  intro b _ row _ hrow
  have hnn := softmaxT_ne_nil 1.373 row hrow
  exact ⟨maxEntry_mem _ hnn, fun y hy => le_maxEntry _ y hy,
    idxMax_lt_length _ hnn, getD_idxMax _ hnn⟩

/-- Witness for C3: on the concrete raw row `[0]`, the confidence is a member
of the temperature-scaled softmax vector, bounds all its entries, and sits at
the returned predicted index. -/
theorem C3_witness :
    maxEntry (softmaxT 1.373 [(0:ℝ)]) ∈ softmaxT 1.373 [(0:ℝ)] ∧
    (∀ y ∈ softmaxT 1.373 [(0:ℝ)], y ≤ maxEntry (softmaxT 1.373 [(0:ℝ)])) ∧
    idxMax (softmaxT 1.373 [(0:ℝ)]) < (softmaxT 1.373 [(0:ℝ)]).length ∧
    (softmaxT 1.373 [(0:ℝ)]).getD (idxMax (softmaxT 1.373 [(0:ℝ)])) 0 =
      maxEntry (softmaxT 1.373 [(0:ℝ)]) := by
  have h := C3_confidence_softmax_max wLoader wModel (0:ℕ) () Mode.train wScores
    wHs wLoader_ne
  exact h.2 wB1 (by simp [wLoader]) [0] (by simp [wScores, wB1]) (by simp)

/-- C7: the probability variant returns, per sample, the full softmax of the
raw scores divided by the fixed temperature 1.15 (no argmax collapse), and
when every raw row is nonempty each returned vector sums to exactly 1 and
every entry lies in [0, 1]. -/
theorem C7_probability_softmax {α ν δ ε γ : Type} (loader : List (Batch α ν))
    (model : Model α δ ε) (x : γ) (device : δ) (m0 : Mode)
    (scores : Batch α ν → List (List ℝ))
    (hs : ∀ b ∈ loader, model.forward device b.images = Except.ok (scores b))
    (hrows : ∀ b ∈ loader, ∀ row ∈ scores b, row ≠ [])
    (hne : loader ≠ []) :
    (create_predictions_probability loader model x device m0).1 =
        Except.ok ((loader.map (fun b =>
                      (scores b).map (fun row => softmaxT 1.15 row))).flatten,
                   (loader.map (fun b => b.labels)).flatten,
                   (loader.map (fun b => b.names)).flatten) ∧
    ∀ q ∈ (loader.map (fun b => (scores b).map (fun row => softmaxT 1.15 row))).flatten,
      q.sum = 1 ∧ ∀ y ∈ q, 0 ≤ y ∧ y ≤ 1 := by
  refine ⟨by rw [create_predictions_probability_run loader model x device m0 scores hs hne],
    ?_⟩
  intro q hq
  rw [List.mem_flatten] at hq
  rcases hq with ⟨s, hsm, hqs⟩
  rcases List.mem_map.mp hsm with ⟨b, hbm, rfl⟩
  rcases List.mem_map.mp hqs with ⟨row, hrm, rfl⟩
  have hrow := hrows b hbm row hrm
  exact ⟨sum_softmaxT 1.15 row hrow, fun y hy => softmaxT_mem_bounds 1.15 row hrow y hy⟩

/-- Witness for C7: the concrete returned vector for the raw row `[0]` sums to
1 and has all entries in [0, 1]. -/
theorem C7_witness :
    (softmaxT 1.15 [(0:ℝ)]).sum = 1 ∧
    ∀ y ∈ softmaxT 1.15 [(0:ℝ)], 0 ≤ y ∧ y ≤ 1 := by
  have h := C7_probability_softmax wLoader wModel (0:ℕ) () Mode.train wScores
    wHs wHrows wLoader_ne
  exact h.2 (softmaxT 1.15 [0]) (by simp [wLoader, wScores, wB1, wB2])

/-- C4: the scalar loss returned by the loss+label variant is the unweighted
arithmetic mean of the per-batch scalar losses (sum of the per-batch losses
divided by the number of batches, not a per-sample weighted mean); in
particular, on the concrete loader with batch sizes 3 and 1 and batch losses
2 and 6 it returns 4, and 4 is not the size-weighted mean 3. -/
theorem C4_mean_loss_unweighted :
    (∀ {α ν δ ε : Type} (loader : List (Batch α ν)) (model : Model α δ ε)
        (loss_fn : List (List ℝ) → List ℤ → ℝ) (device : δ) (m0 : Mode)
        (scores : Batch α ν → List (List ℝ)),
      (∀ b ∈ loader, model.forward device b.images = Except.ok (scores b)) →
      loader ≠ [] →
      (create_predictions loader model loss_fn device m0).1 =
        Except.ok ((loader.map (fun b => (scores b).map idxMax)).flatten,
                   (loader.map (fun b => b.labels)).flatten,
                   (loader.map (fun b => b.names)).flatten,
                   (loader.map (fun b => loss_fn (scores b) b.labels)).sum /
                     (loader.length : ℝ))) ∧
    ((create_predictions wLoader wModel wLoss () Mode.train).1 =
        Except.ok ((wLoader.map (fun b => (wScores b).map idxMax)).flatten,
                   (wLoader.map (fun b => b.labels)).flatten,
                   (wLoader.map (fun b => b.names)).flatten, 4) ∧
      (4:ℝ) ≠ 3) := by
  constructor
  · intro α ν δ ε loader model loss_fn device m0 scores hs hne
    rw [create_predictions_run loader model loss_fn device m0 scores hs hne]
    simp [meanLoss]
  · constructor
    · rw [create_predictions_run wLoader wModel wLoss () Mode.train wScores wHs
        wLoader_ne]
      simp only [Prod.fst]
      norm_num [wLoader, wB1, wB2, wLoss, meanLoss]
    · norm_num

/-- Witness for C4: the general unweighted-mean statement applied to the
concrete two-batch loader. -/
theorem C4_witness :
    (create_predictions wLoader wModel wLoss () Mode.eval).1 =
      Except.ok ((wLoader.map (fun b => (wScores b).map idxMax)).flatten,
                 (wLoader.map (fun b => b.labels)).flatten,
                 (wLoader.map (fun b => b.names)).flatten,
                 (wLoader.map (fun b => wLoss (wScores b) b.labels)).sum /
                   (wLoader.length : ℝ)) :=
  C4_mean_loss_unweighted.1 wLoader wModel wLoss () Mode.eval wScores wHs wLoader_ne

/-- C2 counterexample: on a concrete one-sample run of the confidence variant,
the third component of the returned tuple is the confidence sequence `[1]`
and the fourth is the identifier sequence `cB.names = [5]`; the two differ,
so the identifier sequence does not precede the confidence sequence. -/
theorem C2_counterexample :
    (create_predictions_with_entropy [cB] wModel (0:ℕ) () Mode.train).1 =
      Except.ok ([0], [3], [1], cB.names) ∧
    [(1:ℝ)] ≠ cB.names := by
  constructor
  · have h := create_predictions_entropy_run [cB] wModel (0:ℕ) () Mode.train wScores
      (fun b _ => wModel_forward b) (by simp)
    rw [h]
    norm_num [cB, wScores, idxMax, maxEntry, softmaxT, softmax, Real.exp_zero]
  · norm_num [cB]

/-- C2 (amended): the confidence variant returns its aggregate fields in the
order predicted labels, then ground-truth labels, then confidences, then
identifiers — the confidence sequence precedes the identifier sequence in the
returned tuple. -/
theorem C2_amended_order {α ν δ ε γ : Type} (loader : List (Batch α ν))
    (model : Model α δ ε) (lf2 : γ) (device : δ) (m0 : Mode)
    (scores : Batch α ν → List (List ℝ))
    (hs : ∀ b ∈ loader, model.forward device b.images = Except.ok (scores b))
    (hne : loader ≠ []) :
    (create_predictions_with_entropy loader model lf2 device m0).1 =
      Except.ok ((loader.map (fun b =>
                    (scores b).map (fun row => idxMax (softmaxT 1.373 row)))).flatten,
                 (loader.map (fun b => b.labels)).flatten,
                 (loader.map (fun b =>
                    (scores b).map (fun row => maxEntry (softmaxT 1.373 row)))).flatten,
                 (loader.map (fun b => b.names)).flatten) := by
  rw [create_predictions_entropy_run loader model lf2 device m0 scores hs hne]

/-- Witness for C2: the amended field order on the concrete two-batch loader. -/
theorem C2_witness :
    (create_predictions_with_entropy wLoader wModel (0:ℕ) () Mode.train).1 =
      Except.ok ((wLoader.map (fun b =>
                    (wScores b).map (fun row => idxMax (softmaxT 1.373 row)))).flatten,
                 (wLoader.map (fun b => b.labels)).flatten,
                 (wLoader.map (fun b =>
                    (wScores b).map (fun row => maxEntry (softmaxT 1.373 row)))).flatten,
                 (wLoader.map (fun b => b.names)).flatten) :=
  C2_amended_order wLoader wModel (0:ℕ) () Mode.train wScores wHs wLoader_ne

/-- Concrete metric functions (constantly zero), standing in for sklearn. -/
noncomputable def wMetrics : Metrics := ⟨fun _ _ _ => 0, fun _ _ _ => 0⟩

/-- A concrete configuration with a writer attached. -/
def wConfig : Config Unit := ⟨(), true⟩

/-- C8: the evaluator runs the loss+label runner over the batch sequence,
always emits the Kappa score (quadratic-weighted Cohen's Kappa of the true
and predicted sequences) as a print event, records the four scalars Kappa,
accuracy, macro F1 and mean loss tagged with the caller-supplied step index
exactly when a monitoring sink is configured, restores training mode, and
returns nothing besides these events; accuracy is the fraction of samples
(out of the total sample count) whose predicted class equals the true
class. -/
theorem C8_evaluator {α ν δ ε : Type} (epoch : ℕ) (loader : List (Batch α ν))
    (model : Model α δ ε) (config : Config δ)
    (loss_fn : List (List ℝ) → List ℤ → ℝ) (mtr : Metrics) (m0 : Mode)
    (scores : Batch α ν → List (List ℝ))
    (hs : ∀ b ∈ loader, model.forward config.device b.images = Except.ok (scores b))
    (hlen : ∀ b ∈ loader, (scores b).length = b.images.length)
    (hne : loader ≠ []) :
    evaluate_model epoch loader model config loss_fn mtr m0 =
      (Except.ok
        (Event.printKappa
            (mtr.cohen_kappa_score ((loader.map (fun b => b.labels)).flatten)
              ((loader.map (fun b => (scores b).map idxMax)).flatten) "quadratic") ::
          (if config.writer then
            [Event.addScalar "Kappa"
                (mtr.cohen_kappa_score ((loader.map (fun b => b.labels)).flatten)
                  ((loader.map (fun b => (scores b).map idxMax)).flatten) "quadratic")
                epoch,
             Event.addScalar "Accuracy"
                (accuracy ((loader.map (fun b => (scores b).map idxMax)).flatten)
                  ((loader.map (fun b => b.labels)).flatten)) epoch,
             Event.addScalar "F1"
                (mtr.f1_score ((loader.map (fun b => b.labels)).flatten)
                  ((loader.map (fun b => (scores b).map idxMax)).flatten) "macro")
                epoch,
             Event.addScalar "val_loss"
                (meanLoss (loader.map (fun b => loss_fn (scores b) b.labels))) epoch]
          else [])), Mode.train) ∧
    accuracy ((loader.map (fun b => (scores b).map idxMax)).flatten)
        ((loader.map (fun b => b.labels)).flatten) =
      (((((loader.map (fun b => (scores b).map idxMax)).flatten).zip
            ((loader.map (fun b => b.labels)).flatten)).countP
          (fun pl => decide ((pl.1 : ℤ) = pl.2)) : ℝ)) /
        (totalCount loader : ℝ) := by
  have hrun := create_predictions_run loader model loss_fn config.device m0 scores hs hne
  constructor
  · simp [evaluate_model, hrun]
  · have hP : ((loader.map (fun b => (scores b).map idxMax)).flatten).length =
        totalCount loader := by
      apply length_flatten_eq_totalCount
      intro b hb
      simp [hlen b hb]
    rw [accuracy, hP]

/-- Witness for C8: on the concrete run, accuracy equals the match count over
the total sample count. -/
theorem C8_witness :
    accuracy ((wLoader.map (fun b => (wScores b).map idxMax)).flatten)
        ((wLoader.map (fun b => b.labels)).flatten) =
      (((((wLoader.map (fun b => (wScores b).map idxMax)).flatten).zip
            ((wLoader.map (fun b => b.labels)).flatten)).countP
          (fun pl => decide ((pl.1 : ℤ) = pl.2)) : ℝ)) /
        (totalCount wLoader : ℝ) := by
  have h := C8_evaluator 7 wLoader wModel wConfig wLoss wMetrics Mode.train wScores
    wHs wHlen wLoader_ne
  exact h.2

end DR
